import Mathlib

/-!
Shallow embedding of the `particles` edge-caching proxy, covering the
in-memory cache store (`pkg/cache`: `MemoryCache` with its `Lookup`,
`freeMemory`, `purgeEntries`, `Store`, `Purge`), the memcached adapter's
`Purge`, and the request-handling core of `pkg/cdn/cdn.go`
(`isCachable`, `validate`, `shouldValidate`, `respond`, `httpHandler`).

Modelling conventions:
* time is in whole seconds as `Int` (Go `time.Time`; `a.After(b)` is the
  strict comparison `a > b`, which is preserved at second granularity);
* Go `int` is `Int` (no claim approaches 64-bit overflow), except
  monotone counters (`hits`, `misses`), which are `Nat`;
* a Go `map[string]T` is an association list without duplicate keys; the
  list order stands for one concrete (nondeterministic) iteration order;
* byte slices are `List Nat`;
* each distinct `fmt.Errorf`/`errors.New` site is a constructor of an
  error type;
* mutex operations, logging and prometheus metrics are erased, and the
  state transformation each Go method performs under its lock is made
  explicit by returning the updated state.
-/

namespace Particles

/-- Association-list lookup, the embedding of a Go map read `m[k]`. -/
def mapLookup {α : Type} (m : List (String × α)) (k : String) : Option α :=
  match m with
  | [] => none
  | (k', v) :: rest => if k' = k then some v else mapLookup rest k

/-- Association-list insert/overwrite, the embedding of `m[k] = v`.
On duplicate-free lists this replaces the binding in place. -/
def mapInsert {α : Type} (m : List (String × α)) (k : String) (v : α) : List (String × α) :=
  match m with
  | [] => [(k, v)]
  | (k', v') :: rest => if k' = k then (k, v) :: rest else (k', v') :: mapInsert rest k v

/-- Association-list delete, the embedding of `delete(m, k)` (removes
every binding of `k`; identical to Go on duplicate-free lists). -/
def mapDelete {α : Type} (m : List (String × α)) (k : String) : List (String × α) :=
  match m with
  | [] => []
  | (k', v) :: rest => if k' = k then mapDelete rest k else (k', v) :: mapDelete rest k

/-- `ContentObject` (pkg/cache/cache.go): one cached response. -/
structure ContentObject where
  content : List Nat
  headers : List (String × String)
  ContentType : String
  ttl : Int
  cachedTimestamp : Int
  deriving DecidableEq, Repr

/-- `MemoryItem` (memory.go): the in-memory cache record wrapping a
`ContentObject`. `expiration = timestamp + ttl` is fixed at store time. -/
structure MemoryItem where
  co : ContentObject
  timestamp : Int
  ttl : Int
  expiration : Int
  contentSize : Int
  hits : Nat
  deriving DecidableEq, Repr

/-- The state of a `MemoryCache` (memory.go): the object map plus the
byte accounting (`memSize`/`memLimit`), the global hit/miss counters and
the `forcePurge` flag.  The content-type regexp is not part of any claim
and is omitted. -/
structure MemoryCache where
  objs : List (String × MemoryItem)
  memLimit : Int
  memSize : Int
  hits : Nat
  misses : Nat
  forcePurge : Bool
  deriving DecidableEq, Repr

/-- `defaultTTL` (cache.go): 1-day default TTL substituted for a zero TTL. -/
def defaultTTL : Int := 86400

/-- The distinct error results of the memory cache
(`fmt.Errorf` sites in memory.go). -/
inductive CacheError where
  /-- `"expired entry"` from `Lookup`. -/
  | expiredEntry
  /-- `"item %s can't fit in memory"` from `Store` (single object above the limit). -/
  | cantFitInMemory
  /-- `"unable to free enough memory (%d/%d)"` from `freeMemory`. -/
  | unableToFreeMemory
  /-- `"object not found"` from `Purge`. -/
  | objectNotFound
  deriving DecidableEq, Repr

/-- The triple returned by `MemoryCache.Lookup`. -/
structure LookupResult where
  co : Option ContentObject
  found : Bool
  err : Option CacheError
  deriving DecidableEq, Repr

/-- `NewMemoryCache` (memory.go) after option parsing: empty map, zero
size and counters. -/
def NewMemoryCache (memLimit : Int) (forcePurge : Bool) : MemoryCache :=
  { objs := [], memLimit := memLimit, memSize := 0, hits := 0, misses := 0,
    forcePurge := forcePurge }

/-- `MemoryCache.Lookup` (memory.go lines 95-124): absent key counts a
miss; a present key whose expiration has strictly passed
(`time.Now().After(mi.Expiration())`) counts a miss, is deleted (without
touching `memSize`) and yields the `"expired entry"` error; a fresh key
bumps the item's and the cache's hit counters and returns the content. -/
def MemoryCache.Lookup (c : MemoryCache) (now : Int) (key : String) :
    LookupResult × MemoryCache :=
  match mapLookup c.objs key with
  | some mi =>
    if now > mi.expiration then
      ({ co := none, found := false, err := some CacheError.expiredEntry },
       { c with misses := c.misses + 1, objs := mapDelete c.objs key })
    else
      ({ co := some mi.co, found := true, err := none },
       { c with hits := c.hits + 1,
                objs := mapInsert c.objs key { mi with hits := mi.hits + 1 } })
  | none =>
    ({ co := none, found := false, err := none }, { c with misses := c.misses + 1 })

/-- One pass of `freeMemory`'s inner `for k, co := range c.objs` loop at
threshold `i`: mark an entry if it is expired or under the hit
threshold, then stop (returning `done = true`) once
`fs + memSize > size`.  Accumulates the keys to delete (`tbd`) and the
running freed-size count (`fs`). -/
def freeScan (now : Int) (percentHits : Nat) (memSize size : Int) :
    List (String × MemoryItem) → List String → Int → List String × Int × Bool
  | [], tbd, fs => (tbd, fs, false)
  | (k, co) :: rest, tbd, fs =>
    let marked : List String × Int :=
      if now > co.expiration ∨ co.hits < percentHits
      then (tbd ++ [k], fs + co.contentSize) else (tbd, fs)
    if marked.2 + memSize > size then (marked.1, marked.2, true)
    else freeScan now percentHits memSize size rest marked.1 marked.2

/-- `freeMemory`'s outer loop `for i <= 50 && !done`, with
`percentHits := i * c.hits / 100` recomputed per pass.  `fuel` bounds
the recursion; the loop is entered with `i = 10`, so fuel `41` covers
thresholds 10..50 exactly as the Go loop does. -/
def freeLoop (now : Int) (totalHits : Nat) (memSize size : Int)
    (objs : List (String × MemoryItem)) :
    Nat → Nat → List String → Int → List String × Int
  | 0, _, tbd, fs => (tbd, fs)
  | fuel + 1, i, tbd, fs =>
    if i ≤ 50 then
      match freeScan now (i * totalHits / 100) memSize size objs tbd fs with
      | (tbd', fs', done) =>
        if done then (tbd', fs')
        else freeLoop now totalHits memSize size objs fuel (i + 1) tbd' fs'
    else (tbd, fs)

/-- The force-purge fallback loop of `freeMemory`: mark entries in
iteration order unconditionally until `fs + memSize > size`. -/
def forceScan (memSize size : Int) :
    List (String × MemoryItem) → List String → Int → List String × Int
  | [], tbd, fs => (tbd, fs)
  | (k, co) :: rest, tbd, fs =>
    let tbd' := tbd ++ [k]
    let fs' := fs + co.contentSize
    if fs' + memSize > size then (tbd', fs')
    else forceScan memSize size rest tbd' fs'

/-- `MemoryCache.purgeEntries` (memory.go lines 179-186): batch-delete a
list of keys from the map.  `memSize` is not adjusted. -/
def MemoryCache.purgeEntries (c : MemoryCache) (keys : List String) : MemoryCache :=
  { c with objs := keys.foldl (fun o k => mapDelete o k) c.objs }

/-- `MemoryCache.freeMemory` (memory.go lines 130-176): run the
threshold loop, fall back to force purge when nothing was marked and
`forcePurge` is set, delete the marked keys regardless, and fail with
`"unable to free enough memory"` iff `fs + memSize < size`. -/
def MemoryCache.freeMemory (c : MemoryCache) (now : Int) (size : Int) :
    Option CacheError × MemoryCache :=
  let pass1 := freeLoop now c.hits c.memSize size c.objs 41 10 [] 0
  let pass2 :=
    if pass1.1.isEmpty ∧ c.forcePurge then forceScan c.memSize size c.objs pass1.1 pass1.2
    else pass1
  let c' := c.purgeEntries pass2.1
  if pass2.2 + c.memSize < size then (some CacheError.unableToFreeMemory, c')
  else (none, c')

/-- `MemoryCache.Store` (memory.go lines 189-225): reject an object
larger than the whole limit; if the new total would exceed the limit,
attempt `freeMemory` and propagate its error (the entries it purged stay
purged); otherwise normalize a zero TTL to `defaultTTL` (mutating the
stored `ContentObject`), insert the record with
`expiration = now + ttl`, and set `memSize` to the pre-eviction
`newSize`. -/
def MemoryCache.Store (c : MemoryCache) (now : Int) (key : String) (co : ContentObject) :
    Option CacheError × MemoryCache :=
  let size : Int := co.content.length
  if size > c.memLimit then (some CacheError.cantFitInMemory, c)
  else
    let newSize := c.memSize + size
    let freed : Option CacheError × MemoryCache :=
      if newSize > c.memLimit then c.freeMemory now size else (none, c)
    match freed.1 with
    | some e => (some e, freed.2)
    | none =>
      let ttl := if co.ttl = 0 then defaultTTL else co.ttl
      let co' := { co with ttl := ttl }
      let mi : MemoryItem :=
        { co := co', timestamp := now, ttl := ttl, expiration := now + ttl,
          contentSize := size, hits := 0 }
      (none, { freed.2 with objs := mapInsert freed.2.objs key mi, memSize := newSize })

/-- `MemoryCache.Purge` (memory.go lines 228-245): delete a present key
and subtract its size from `memSize`; a missing key is the
`"object not found"` error. -/
def MemoryCache.Purge (c : MemoryCache) (key : String) :
    Option CacheError × MemoryCache :=
  match mapLookup c.objs key with
  | none => (some CacheError.objectNotFound, c)
  | some mi =>
    (none, { c with memSize := c.memSize - mi.contentSize, objs := mapDelete c.objs key })

/-- One API operation against the in-memory store, for reachability
statements over sequences of `Store`, `Lookup` and `Purge` calls. -/
inductive CacheOp where
  | store (now : Int) (key : String) (co : ContentObject)
  | lookup (now : Int) (key : String)
  | purge (key : String)

/-- The state transformation of one operation (results discarded). -/
def applyOp (c : MemoryCache) : CacheOp → MemoryCache
  | CacheOp.store now key co => (c.Store now key co).2
  | CacheOp.lookup now key => ((c.Lookup now key)).2
  | CacheOp.purge key => (c.Purge key).2

/-- Run a sequence of operations from a state. -/
def runOps (c : MemoryCache) (ops : List CacheOp) : MemoryCache :=
  ops.foldl applyOp c

/-- The sum of `sizeBytes` over the records currently live in the map
(the spec's reference value for `currentSizeBytes`). -/
def liveSize (c : MemoryCache) : Int :=
  (c.objs.map (fun p => p.2.contentSize)).foldl (· + ·) 0

/-! ### Concrete fixtures for the closed-input theorems -/

/-- A 14-byte entry with the zero TTL (the spec's "14-byte filler"). -/
def fillerCO : ContentObject :=
  { content := List.replicate 14 0, headers := [], ContentType := "text/css",
    ttl := 0, cachedTimestamp := 0 }

/-- A 19-byte entry that cannot be accommodated next to the filler under
a 20-byte limit. -/
def secondCO : ContentObject :=
  { content := List.replicate 19 0, headers := [], ContentType := "text/css",
    ttl := 0, cachedTimestamp := 0 }

/-- A 10-byte entry. -/
def tenCO : ContentObject :=
  { content := List.replicate 10 0, headers := [], ContentType := "text/css",
    ttl := 0, cachedTimestamp := 0 }

/-- A 14-byte entry with a 1-second TTL. -/
def leakCO : ContentObject :=
  { content := List.replicate 14 0, headers := [], ContentType := "text/css",
    ttl := 1, cachedTimestamp := 0 }

/-- A record whose expiration instant is exactly 5. -/
def boundaryItem : MemoryItem :=
  { co := { content := [7], headers := [], ContentType := "text/css", ttl := 5,
            cachedTimestamp := 0 },
    timestamp := 0, ttl := 5, expiration := 5, contentSize := 1, hits := 0 }

/-- A one-record store holding `boundaryItem` under key `"k"`. -/
def boundaryCache : MemoryCache :=
  { objs := [("k", boundaryItem)], memLimit := 100, memSize := 1, hits := 0,
    misses := 0, forcePurge := false }

/-- A fresh record cached at time 100 with a 600-second TTL. -/
def freshItem : MemoryItem :=
  { co := { content := [1, 2], headers := [("X", "y")], ContentType := "text/css",
            ttl := 600, cachedTimestamp := 100 },
    timestamp := 100, ttl := 600, expiration := 700, contentSize := 2, hits := 0 }

/-- A one-record store holding `freshItem` under key `"u"`. -/
def freshCache : MemoryCache :=
  { objs := [("u", freshItem)], memLimit := 100, memSize := 2, hits := 0,
    misses := 0, forcePurge := false }

/-! ### Go standard-library string functions used by `pkg/cdn/cdn.go` -/

/-- The white-space set of Go `unicode.IsSpace` (ASCII space characters
plus the Unicode space code points). -/
def goIsSpace (ch : Char) : Bool :=
  let n := ch.toNat
  n = 9 || n = 10 || n = 11 || n = 12 || n = 13 || n = 32 ||
  n = 0x85 || n = 0xA0 || n = 0x1680 || (0x2000 ≤ n && n ≤ 0x200A) ||
  n = 0x2028 || n = 0x2029 || n = 0x202F || n = 0x205F || n = 0x3000

/-- Go `strings.TrimSpace`: drop white space from both ends. -/
def goTrimSpace (s : String) : String :=
  String.mk (((s.toList.dropWhile goIsSpace).reverse.dropWhile goIsSpace).reverse)

/-- Lower-case one character (ASCII range; the `Cache-Control` tokens the
handler compares are ASCII). -/
def goToLowerChar (ch : Char) : Char :=
  if 'A' ≤ ch ∧ ch ≤ 'Z' then Char.ofNat (ch.toNat + 32) else ch

/-- Go `strings.ToLower` on ASCII input. -/
def goToLower (s : String) : String :=
  String.mk (s.toList.map goToLowerChar)

/-- List version of Go `strings.HasPrefix`. -/
def listStartsWith : List Char → List Char → Bool
  | _, [] => true
  | [], _ :: _ => false
  | a :: as, b :: bs => a = b && listStartsWith as bs

/-- Go `strings.HasPrefix s pre`. -/
def goStartsWith (s p : String) : Bool :=
  listStartsWith s.toList p.toList

/-- Character-list worker for `splitChar`; `acc` holds the current field
reversed. -/
def splitCharList (sep : Char) : List Char → List Char → List String
  | [], acc => [String.mk acc.reverse]
  | ch :: rest, acc =>
    if ch = sep then String.mk acc.reverse :: splitCharList sep rest []
    else splitCharList sep rest (ch :: acc)

/-- Go `strings.Split s sep` for a one-character separator (the handler
splits on `","` and on `"="`).  Never returns an empty list. -/
def splitChar (sep : Char) (s : String) : List String :=
  splitCharList sep s.toList []

/-- Digit-string accumulator for `goAtoi`. -/
def natOfDigitsAux : List Char → Nat → Option Nat
  | [], acc => some acc
  | ch :: rest, acc =>
    if '0' ≤ ch ∧ ch ≤ '9' then natOfDigitsAux rest (acc * 10 + (ch.toNat - 48))
    else none

/-- A non-empty all-digit string as a `Nat`. -/
def natOfDigits (ds : List Char) : Option Nat :=
  match ds with
  | [] => none
  | _ :: _ => natOfDigitsAux ds 0

/-- Go `strconv.Atoi`: optional sign followed by at least one digit
(the int64 overflow bound is not modelled; no claim approaches it). -/
def goAtoi (s : String) : Option Int :=
  match s.toList with
  | '+' :: ds => (natOfDigits ds).map (fun n => (n : Int))
  | '-' :: ds => (natOfDigits ds).map (fun n => -(n : Int))
  | ds => (natOfDigits ds).map (fun n => (n : Int))

/-! ### The CDN request handler (`pkg/cdn/cdn.go`) -/

/-- `cacheItemInfo` (cdn.go): content type and max-age extracted by
`isCachable`.  Zero value: empty content type, max-age 0. -/
structure CacheItemInfo where
  ContentType : String
  MaxAge : Int
  deriving DecidableEq, Repr

/-- The zero `cacheItemInfo` (`cii := cacheItemInfo{}`). -/
def CacheItemInfo.zero : CacheItemInfo :=
  { ContentType := "", MaxAge := 0 }

/-- `http.Header.Get`: first value for the key, `""` if absent (header
keys are stored in canonical form; the model compares keys verbatim). -/
def headersGet (hs : List (String × String)) (k : String) : String :=
  (mapLookup hs k).getD ""

/-- The `for _, s := range ccParts` loop of `CDN.isCachable`: a token
lower-casing to `"public"` sets `cachable`; a token starting with
`"max-age"` is split on `"="` and `maParts[1]` is parsed — when the
token contains no `"="` at all, `maParts` has one element and the Go
index expression `maParts[1]` panics (`none` here means that panic). -/
def ccLoop : List String → Bool → CacheItemInfo → Option (Bool × CacheItemInfo)
  | [], cachable, cii => some (cachable, cii)
  | s :: rest, cachable, cii =>
    let trimS := goTrimSpace s
    let cachable' := if goToLower trimS = "public" then true else cachable
    if goStartsWith trimS "max-age" then
      match splitChar '=' trimS with
      | _ :: second :: _ =>
        match goAtoi second with
        | some n => ccLoop rest cachable' { cii with MaxAge := n }
        | none => ccLoop rest cachable' cii
      | _ => none
    else ccLoop rest cachable' cii

/-- `CDN.isCachable` (cdn.go lines 226-268).  `ctOK` stands for the
store's `IsCachableContentType` check (a regexp match on the configured
allow-pattern).  The result is `none` when the Go code panics, otherwise
`(cachable, cii)`. -/
def CDN.isCachable (ctOK : String → Bool) (headers : List (String × String)) :
    Option (Bool × CacheItemInfo) :=
  let ct := headersGet headers "Content-Type"
  if ct = "" then some (false, CacheItemInfo.zero)
  else if ¬ ctOK ct then some (false, CacheItemInfo.zero)
  else
    let cii := { CacheItemInfo.zero with ContentType := ct }
    let cc := headersGet headers "Cache-Control"
    if cc = "" then some (false, cii)
    else ccLoop (splitChar ',' (goTrimSpace cc)) false cii

/-- `endpoint` (cdn.go): the origin routing entry for one virtual host. -/
structure Endpoint where
  IP : String
  Port : Int
  Proto : String
  deriving DecidableEq, Repr

/-- The Go zero value of `endpoint`, produced by reading a missing key
from the `endpoints` map. -/
def Endpoint.zero : Endpoint :=
  { IP := "", Port := 0, Proto := "" }

/-- A one-entry origin-routing table for `example.com`. -/
def exampleEps : List (String × Endpoint) :=
  [("example.com", { IP := "1.2.3.4", Port := 80, Proto := "http" })]

/-- One observable write on the `http.ResponseWriter`. -/
inductive WriteAction where
  | setHeader (k v : String)
  | writeHeader (code : Nat)
  | write (body : List Nat)
  deriving DecidableEq, Repr

/-- An origin HTTP response as the handler consumes it. -/
structure OriginResp where
  status : Nat
  headers : List (String × String)
  body : List Nat
  deriving DecidableEq, Repr

/-- Outcome of `httpClient.Do` for the single origin round-trip a
request performs (transport failure or a buffered response). -/
inductive OriginResult where
  | failure
  | resp (r : OriginResp)
  deriving DecidableEq, Repr

/-- `respond` (cdn.go lines 311-319): copy the headers, write status
200, write the body. -/
def respond (hh : List (String × String)) (body : List Nat) : List WriteAction :=
  (hh.map (fun p => WriteAction.setHeader p.1 p.2)) ++
    [WriteAction.writeHeader 200, WriteAction.write body]

/-- `respHeadersToMap` (cdn.go): response headers as a string map (the
model's headers are already single-valued). -/
def respHeadersToMap (hs : List (String × String)) : List (String × String) := hs

/-- `cleanHeadersMap` (cdn.go): the identity (its body is a TODO). -/
def cleanHeadersMap (hs : List (String × String)) : List (String × String) := hs

/-- `CDN.validate` (cdn.go lines 286-299): transport error →
`(false, nil, err)`; status 304 → `(false, nil, nil)`; anything else →
`(true, resp, nil)`.  The third component records whether `err != nil`. -/
def CDN.validate : OriginResult → Bool × Option OriginResp × Bool
  | OriginResult.failure => (false, none, true)
  | OriginResult.resp r => if r.status = 304 then (false, none, false) else (true, some r, false)

/-- `shouldValidate` (cdn.go lines 302-308): always validate a zero
cached timestamp, otherwise validate iff `now` is strictly past
`cachedTimestamp + d`. -/
def shouldValidate (co : ContentObject) (d : Int) (now : Int) : Bool :=
  if co.cachedTimestamp = 0 then true
  else decide (now - (co.cachedTimestamp + d) > 0)

/-- The origin URL the handler builds:
`fmt.Sprintf("%s://%s:%d", proto, host, port) + req.URL.Path`, with
`proto`/`port` read (Go zero value when absent) from the endpoints map. -/
def frOf (eps : List (String × Endpoint)) (host p : String) : String :=
  let e := (mapLookup eps host).getD Endpoint.zero
  e.Proto ++ "://" ++ host ++ ":" ++ toString e.Port ++ p

/-- Whether `http.NewRequest` accepts the URL.  `url.Parse` fails with
`"missing protocol scheme"` exactly when the scheme part before the
first colon is empty; for the URLs `frOf` builds (a `proto` of `""`,
`"http"` or `"https"` followed by `"://..."`) that is precisely the
strings starting with `':'`. -/
def goNewRequestOk (u : String) : Bool :=
  !(goStartsWith u ":")

/-- What one call of `httpHandler` did: the client-visible writes in
order, the cache state it left behind, and whether it panicked. -/
structure HandlerResult where
  actions : List WriteAction
  cache : MemoryCache
  panicked : Bool
  deriving Repr

/-- `CDN.httpHandler` (cdn.go lines 322-469) over the in-memory store.
`host` is the request host with any port already stripped, `reqURL` is
`req.URL.String()` (the cache key) and `origin` is the outcome of the
one origin round-trip the request makes (used by the validation path on
a hit and by the forwarding path on a miss).  Reading the request and
response bodies is modelled as succeeding.  The asynchronous
`go c.cache.Store(...)` is applied to the returned cache state; its
error is discarded, as in the source.  `panicked` records the nil-deref
panic after a failed `http.NewRequest` on the validation path (the code
writes 500 and then still calls `validate(nil)`) and the
`maParts[1]` index panic inside `isCachable`. -/
def CDN.httpHandler (ctOK : String → Bool) (eps : List (String × Endpoint))
    (c : MemoryCache) (now : Int) (host p reqURL : String)
    (origin : OriginResult) : HandlerResult :=
  let fr := frOf eps host p
  let lc := c.Lookup now reqURL
  let lr := lc.1
  let c1 := lc.2
  if lr.found then
    match lr.co with
    | some content =>
      if shouldValidate content 15 now then
        if goNewRequestOk fr then
          let v := CDN.validate origin
          let validated := v.1
          let vresp := v.2.1
          let erred := v.2.2
          let pre := if erred then [WriteAction.writeHeader 500] else []
          match vresp with
          | some r =>
            if validated then
              { actions := pre ++ respond r.headers r.body, cache := c1, panicked := false }
            else { actions := pre, cache := c1, panicked := false }
          | none => { actions := pre, cache := c1, panicked := false }
        else { actions := [WriteAction.writeHeader 500], cache := c1, panicked := true }
      else
        { actions := respond content.headers content.content, cache := c1, panicked := false }
    | none => { actions := [], cache := c1, panicked := true }
  else
    if goNewRequestOk fr then
      match origin with
      | OriginResult.failure =>
        { actions := [WriteAction.writeHeader 400], cache := c1, panicked := false }
      | OriginResult.resp r =>
        let acts := respond r.headers r.body
        match CDN.isCachable ctOK r.headers with
        | none => { actions := acts, cache := c1, panicked := true }
        | some (cachable, cii) =>
          if cachable then
            let co : ContentObject :=
              { content := r.body, headers := cleanHeadersMap (respHeadersToMap r.headers),
                ContentType := cii.ContentType, ttl := cii.MaxAge, cachedTimestamp := now }
            { actions := acts, cache := (c1.Store now reqURL co).2, panicked := false }
          else { actions := acts, cache := c1, panicked := false }
    else { actions := [WriteAction.writeHeader 400], cache := c1, panicked := false }

/-- Modelled from the spec: a gateway-class HTTP response status
(502 Bad Gateway / 504 Gateway Timeout), the error class §4.3 and §7
prescribe for routing and forwarding failures. -/
def gatewayClassStatus (code : Nat) : Bool :=
  code = 502 || code = 504

/-! ### The memcached adapter (`pkg/cache/memcached.go`) -/

/-- The memcached backend's delete outcome.  `cacheMiss` is
`memcache.ErrCacheMiss`; `serverError` stands for any other backend
error (never produced by `mcDelete`, which models an available
backend). -/
inductive McError where
  | cacheMiss
  | serverError
  deriving DecidableEq, Repr

/-- The backend `Delete` of an available memcached server: remove the
key, report `ErrCacheMiss` when it is absent. -/
def mcDelete (b : List (String × List Nat)) (k : String) :
    Option McError × List (String × List Nat) :=
  match mapLookup b k with
  | none => (some McError.cacheMiss, b)
  | some _ => (none, mapDelete b k)

/-- `MemcachedCache.Purge` (memcached.go lines 132-150): delete the key;
`ErrCacheMiss` maps to success, any other error is propagated. -/
def MemcachedCache.Purge (b : List (String × List Nat)) (k : String) :
    Option McError × List (String × List Nat) :=
  match mcDelete b k with
  | (some McError.cacheMiss, b') => (none, b')
  | (some e, b') => (some e, b')
  | (none, b') => (none, b')

end Particles
namespace Particles

/-! ### Helper lemmas -/

theorem mapLookup_mapInsert_self {α : Type} (m : List (String × α)) (k : String) (v : α) :
    mapLookup (mapInsert m k v) k = some v := by
  induction m with
  | nil => simp [mapInsert, mapLookup]
  | cons hd tl ih =>
    obtain ⟨k', v'⟩ := hd
    by_cases h : k' = k
    · simp [mapInsert, mapLookup, h]
    · simp [mapInsert, mapLookup, h, ih]

theorem mapLookup_mapDelete_self {α : Type} (m : List (String × α)) (k : String) :
    mapLookup (mapDelete m k) k = none := by
  induction m with
  | nil => simp [mapDelete, mapLookup]
  | cons hd tl ih =>
    obtain ⟨k', v'⟩ := hd
    by_cases h : k' = k
    · simp [mapDelete, h, ih]
    · simp [mapDelete, mapLookup, h, ih]

theorem freeMemory_memSize (c : MemoryCache) (now size : Int) :
    ((c.freeMemory now size).2).memSize = c.memSize := by
  simp only [MemoryCache.freeMemory]
  split <;> split <;> rfl

theorem lookup_memSize (c : MemoryCache) (now : Int) (key : String) :
    ((c.Lookup now key).2).memSize = c.memSize := by
  unfold MemoryCache.Lookup
  cases mapLookup c.objs key with
  | none => rfl
  | some mi =>
    dsimp only
    split <;> rfl

theorem store_success_state (c : MemoryCache) (now : Int) (key : String) (co : ContentObject)
    (hsucc : (c.Store now key co).1 = none) :
    mapLookup ((c.Store now key co).2).objs key =
      some { co := { co with ttl := if co.ttl = 0 then defaultTTL else co.ttl },
             timestamp := now,
             ttl := if co.ttl = 0 then defaultTTL else co.ttl,
             expiration := now + (if co.ttl = 0 then defaultTTL else co.ttl),
             contentSize := (co.content.length : Int), hits := 0 } := by
  by_cases h1 : ((co.content.length : Int)) > c.memLimit
  · have hbad : (c.Store now key co).1 = some CacheError.cantFitInMemory := by
      simp [MemoryCache.Store, h1]
    rw [hbad] at hsucc
    simp at hsucc
  · by_cases h2 : c.memSize + ((co.content.length : Int)) > c.memLimit
    · rcases hf : (c.freeMemory now ((co.content.length : Int))).1 with _ | e
      · have hst : ((c.Store now key co).2).objs =
            mapInsert ((c.freeMemory now ((co.content.length : Int))).2).objs key
              { co := { co with ttl := if co.ttl = 0 then defaultTTL else co.ttl },
                timestamp := now,
                ttl := if co.ttl = 0 then defaultTTL else co.ttl,
                expiration := now + (if co.ttl = 0 then defaultTTL else co.ttl),
                contentSize := (co.content.length : Int), hits := 0 } := by
          simp [MemoryCache.Store, h1, h2, hf]
        rw [hst]
        exact mapLookup_mapInsert_self _ _ _
      · have hbad : (c.Store now key co).1 = some e := by
          simp [MemoryCache.Store, h1, h2, hf]
        rw [hbad] at hsucc
        simp at hsucc
    · have hst : ((c.Store now key co).2).objs =
          mapInsert c.objs key
            { co := { co with ttl := if co.ttl = 0 then defaultTTL else co.ttl },
              timestamp := now,
              ttl := if co.ttl = 0 then defaultTTL else co.ttl,
              expiration := now + (if co.ttl = 0 then defaultTTL else co.ttl),
              contentSize := (co.content.length : Int), hits := 0 } := by
        simp [MemoryCache.Store, h1, h2]
      rw [hst]
      exact mapLookup_mapInsert_self _ _ _

/-! ### Claim theorems -/

/-- Claim C1 (code bug): the size invariant fails on the code.  In the state
reached by storing a 14-byte entry with TTL 1 at time 0 into a fresh
20-byte-limit store and looking it up at time 2 — which deletes the expired
record — `memSize` is still 14 while the map is empty (live sum 0); moreover a
successful `Store` can leave `memSize = 24` above `memLimit = 20`, because
`freeMemory` reports success comparing freed bytes plus `memSize` against the
object size rather than the limit, and `Store` then writes the pre-eviction
`newSize`. -/
theorem memSize_invariant_fails :
    (runOps (NewMemoryCache 20 false)
        [CacheOp.store 0 "a" leakCO, CacheOp.lookup 2 "a"]).memSize = 14 ∧
    (runOps (NewMemoryCache 20 false)
        [CacheOp.store 0 "a" leakCO, CacheOp.lookup 2 "a"]).objs = [] ∧
    liveSize (runOps (NewMemoryCache 20 false)
        [CacheOp.store 0 "a" leakCO, CacheOp.lookup 2 "a"]) = 0 ∧
    ((((NewMemoryCache 20 false).Store 0 "filler" fillerCO).2).Store 1 "ten" tenCO).1 = none ∧
    (((((NewMemoryCache 20 false).Store 0 "filler" fillerCO).2).Store 1 "ten" tenCO).2).memSize = 24 ∧
    (((((NewMemoryCache 20 false).Store 0 "filler" fillerCO).2).Store 1 "ten" tenCO).2).memLimit = 20 := by
  decide

/-- Claim C2: with a 20-byte limit and force-purge off, storing a 14-byte
filler succeeds, and then storing a 19-byte entry — which cannot fit even
after the eviction attempt, which can free nothing — fails with the
insufficient-memory error (`"unable to free enough memory"`). -/
theorem insufficientMemory_at_limit20 :
    ((NewMemoryCache 20 false).Store 0 "filler" fillerCO).1 = none ∧
    ((((NewMemoryCache 20 false).Store 0 "filler" fillerCO).2).Store 1 "second" secondCO).1 =
      some CacheError.unableToFreeMemory := by
  decide

/-- Claim C4 (code bug): on a header map whose content type passes the store
check and whose `Cache-Control` contains the token `max-age` with no `=` sign,
`isCachable` does not return `maxAge = 0` as the spec prescribes:
`strings.Split(trimS, "=")` yields a single element and the Go expression
`maParts[1]` panics with an index out of range (modelled as `none`). -/
theorem isCachable_panics_on_bare_max_age :
    CDN.isCachable (fun _ => true)
      [("Content-Type", "text/css"), ("Cache-Control", "public, max-age")] = none := by
  decide

/-- Claim C3 counterexample: at `now` exactly equal to the record's expiration
(`boundaryCache`, key `"k"`, `now = 5`) the code treats the entry as fresh —
`Lookup` returns it with `found = true` and no error and keeps the record with
its hit count bumped — whereas the claim prescribes deletion and the
expired-entry error whenever `now ≥ expiresAt`. -/
theorem lookup_at_exact_expiry_returns_fresh :
    ((boundaryCache.Lookup 5 "k").1).found = true ∧
    ((boundaryCache.Lookup 5 "k").1).err = none ∧
    mapLookup ((boundaryCache.Lookup 5 "k").2).objs "k" =
      some { boundaryItem with hits := boundaryItem.hits + 1 } := by
  decide

/-- Claim C3 (amended): `Lookup` has exactly three outcomes, with a strict
expiry boundary: absent key → `(nil, false, nil)` and a miss is counted;
present and `now > expiresAt` (strictly) → the record is deleted and
`(nil, false, ErrExpired)` returned; present and `now ≤ expiresAt` → the
record's hit count and the global hit total are each incremented and
`(entry, true, nil)` returned. -/
theorem lookup_trichotomy (c : MemoryCache) (now : Int) (key : String) :
    (mapLookup c.objs key = none →
      (c.Lookup now key).1 = { co := none, found := false, err := none } ∧
      ((c.Lookup now key).2).misses = c.misses + 1) ∧
    (∀ mi, mapLookup c.objs key = some mi → now > mi.expiration →
      (c.Lookup now key).1 =
        { co := none, found := false, err := some CacheError.expiredEntry } ∧
      mapLookup ((c.Lookup now key).2).objs key = none ∧
      ((c.Lookup now key).2).misses = c.misses + 1) ∧
    (∀ mi, mapLookup c.objs key = some mi → now ≤ mi.expiration →
      (c.Lookup now key).1 = { co := some mi.co, found := true, err := none } ∧
      ((c.Lookup now key).2).hits = c.hits + 1 ∧
      mapLookup ((c.Lookup now key).2).objs key = some { mi with hits := mi.hits + 1 }) := by
  refine ⟨?_, ?_, ?_⟩
  · intro h
    simp [MemoryCache.Lookup, h]
  · intro mi h hexp
    simp [MemoryCache.Lookup, h, hexp, mapLookup_mapDelete_self]
  · intro mi h hfresh
    have hnot : ¬ now > mi.expiration := not_lt.mpr hfresh
    simp [MemoryCache.Lookup, h, hnot, mapLookup_mapInsert_self]

/-- Witness for `lookup_trichotomy` at concrete inputs: the empty store
misses; `boundaryCache` at time 6 takes the expired branch and at time 4 the
fresh branch. -/
theorem lookup_trichotomy_witness :
    ((NewMemoryCache 20 false).Lookup 0 "k").1 =
      { co := none, found := false, err := none } ∧
    ((boundaryCache.Lookup 6 "k").1 =
      { co := none, found := false, err := some CacheError.expiredEntry } ∧
      mapLookup ((boundaryCache.Lookup 6 "k").2).objs "k" = none ∧
      ((boundaryCache.Lookup 6 "k").2).misses = boundaryCache.misses + 1) ∧
    ((boundaryCache.Lookup 4 "k").1 =
      { co := some boundaryItem.co, found := true, err := none }) :=
  ⟨((lookup_trichotomy (NewMemoryCache 20 false) 0 "k").1 (by decide)).1,
   (lookup_trichotomy boundaryCache 6 "k").2.1 boundaryItem (by decide) (by decide),
   ((lookup_trichotomy boundaryCache 4 "k").2.2 boundaryItem (by decide) (by decide)).1⟩

/-- Claim C10: the deletions made by `Lookup` on expiry discovery and by
`purgeEntries`/`freeMemory` during eviction never change `memSize`, and of the
store's operations only `Purge` can decrease it: `Lookup` preserves `memSize`
exactly and `Store` never decreases it. -/
theorem only_purge_decrements_memSize (c : MemoryCache) :
    (∀ now key, ((c.Lookup now key).2).memSize = c.memSize) ∧
    (∀ keys, (c.purgeEntries keys).memSize = c.memSize) ∧
    (∀ now size, ((c.freeMemory now size).2).memSize = c.memSize) ∧
    (∀ now key co, c.memSize ≤ ((c.Store now key co).2).memSize) := by
  refine ⟨fun now key => lookup_memSize c now key, fun keys => rfl,
          fun now size => freeMemory_memSize c now size, ?_⟩
  intro now key co
  by_cases h1 : ((co.content.length : Int)) > c.memLimit
  · simp [MemoryCache.Store, h1]
  · by_cases h2 : c.memSize + ((co.content.length : Int)) > c.memLimit
    · rcases hf : (c.freeMemory now ((co.content.length : Int))).1 with _ | e
      · have hs : ((c.Store now key co).2).memSize =
            c.memSize + ((co.content.length : Int)) := by
          simp [MemoryCache.Store, h1, h2, hf]
        rw [hs]
        have hn : (0 : Int) ≤ ((co.content.length : Int)) := Int.natCast_nonneg _
        omega
      · have hs : ((c.Store now key co).2).memSize =
            ((c.freeMemory now ((co.content.length : Int))).2).memSize := by
          simp [MemoryCache.Store, h1, h2, hf]
        rw [hs, freeMemory_memSize]
    · have hs : ((c.Store now key co).2).memSize =
          c.memSize + ((co.content.length : Int)) := by
        simp [MemoryCache.Store, h1, h2]
      rw [hs]
      have hn : (0 : Int) ≤ ((co.content.length : Int)) := Int.natCast_nonneg _
      omega

/-- Claim C6: if `Store` returns success for an entry with non-negative TTL,
an immediately following `Lookup` of the same key finds it and returns content
bytes and content type identical to the stored entry's. -/
theorem store_then_lookup_same_content (c : MemoryCache) (now : Int) (key : String)
    (co : ContentObject) (httl : 0 ≤ co.ttl)
    (hsucc : (c.Store now key co).1 = none) :
    ∃ e, ((((c.Store now key co).2).Lookup now key).1) =
        { co := some e, found := true, err := none } ∧
      e.content = co.content ∧ e.ContentType = co.ContentType := by
  have hmap := store_success_state c now key co hsucc
  refine ⟨{ co with ttl := if co.ttl = 0 then defaultTTL else co.ttl }, ?_, rfl, rfl⟩
  have hexp : ¬ (now > now + (if co.ttl = 0 then defaultTTL else co.ttl)) := by
    by_cases h : co.ttl = 0
    · rw [if_pos h]
      simp only [defaultTTL]
      omega
    · rw [if_neg h]
      omega
  simp [MemoryCache.Lookup, hmap, hexp]

/-- Witness for `store_then_lookup_same_content`: storing the 14-byte filler
into a fresh 20-byte store and looking it up at the same instant. -/
theorem store_then_lookup_same_content_witness :
    (0 ≤ fillerCO.ttl ∧ ((NewMemoryCache 20 false).Store 0 "k" fillerCO).1 = none) ∧
    (∃ e, (((((NewMemoryCache 20 false).Store 0 "k" fillerCO).2).Lookup 0 "k").1) =
        { co := some e, found := true, err := none } ∧
      e.content = fillerCO.content ∧ e.ContentType = fillerCO.ContentType) :=
  ⟨⟨by decide, by decide⟩,
   store_then_lookup_same_content (NewMemoryCache 20 false) 0 "k" fillerCO
     (by decide) (by decide)⟩

/-- Claim C7: an entry stored with TTL 0 is normalized at store time to the
default (`defaultTTL = 86400`), so an immediately following `Lookup` returns
an entry whose TTL equals the default and is never 0. -/
theorem store_zero_ttl_normalizes (c : MemoryCache) (now : Int) (key : String)
    (co : ContentObject) (h0 : co.ttl = 0)
    (hsucc : (c.Store now key co).1 = none) :
    ∃ e, ((((c.Store now key co).2).Lookup now key).1).co = some e ∧
      e.ttl = defaultTTL ∧ defaultTTL = 86400 ∧ e.ttl ≠ 0 := by
  have hmap := store_success_state c now key co hsucc
  refine ⟨{ co with ttl := if co.ttl = 0 then defaultTTL else co.ttl }, ?_,
          by simp [h0], rfl, by simp [h0, defaultTTL]⟩
  have hexp : ¬ (now > now + (if co.ttl = 0 then defaultTTL else co.ttl)) := by
    rw [if_pos h0]
    simp only [defaultTTL]
    omega
  simp [MemoryCache.Lookup, hmap, hexp]

/-- Witness for `store_zero_ttl_normalizes`: the 14-byte filler entry carries
TTL 0 and is stored into a fresh 20-byte store. -/
theorem store_zero_ttl_normalizes_witness :
    (fillerCO.ttl = 0 ∧ ((NewMemoryCache 20 false).Store 0 "k0" fillerCO).1 = none) ∧
    (∃ e, (((((NewMemoryCache 20 false).Store 0 "k0" fillerCO).2).Lookup 0 "k0").1).co =
        some e ∧ e.ttl = defaultTTL ∧ defaultTTL = 86400 ∧ e.ttl ≠ 0) :=
  ⟨⟨by decide, by decide⟩,
   store_zero_ttl_normalizes (NewMemoryCache 20 false) 0 "k0" fillerCO
     (by decide) (by decide)⟩

/-- The single-token fact `listStartsWith (c :: l) [c] = true`. -/
theorem listStartsWith_head (ch : Char) (l : List Char) :
    listStartsWith (ch :: l) [ch] = true := by
  simp [listStartsWith]

/-- For a host absent from the routing table the handler builds the URL
with the zero endpoint, so it starts with `"://"` and `http.NewRequest`
rejects it. -/
theorem goNewRequestOk_unknown_host (eps : List (String × Endpoint)) (host p : String)
    (hhost : mapLookup eps host = none) :
    goNewRequestOk (frOf eps host p) = false := by
  obtain ⟨l, hl⟩ : ∃ l, (frOf eps host p).data = ':' :: l := by
    refine ⟨'/' :: '/' :: (host.data ++ (':' ::
      ((toString Endpoint.zero.Port).data ++ p.data))), ?_⟩
    unfold frOf
    rw [hhost]
    simp [String.data_append, Endpoint.zero]
  unfold goNewRequestOk goStartsWith
  have hl' : (frOf eps host p).toList = ':' :: l := hl
  rw [hl']
  simp [listStartsWith_head]

/-- Claim C5: when a cache hit requires validation and the origin answers the
validation request with 304 Not Modified, the handler completes without
writing any status, headers, or body to the client, and without panicking. -/
theorem validation_304_writes_nothing (ctOK : String → Bool)
    (eps : List (String × Endpoint)) (c : MemoryCache) (now : Int)
    (host p reqURL : String) (hdrs : List (String × String)) (body : List Nat)
    (mi : MemoryItem)
    (hfound : mapLookup c.objs reqURL = some mi)
    (hfresh : now ≤ mi.expiration)
    (hval : shouldValidate mi.co 15 now = true)
    (hreq : goNewRequestOk (frOf eps host p) = true) :
    (CDN.httpHandler ctOK eps c now host p reqURL
        (OriginResult.resp { status := 304, headers := hdrs, body := body })).actions = [] ∧
    (CDN.httpHandler ctOK eps c now host p reqURL
        (OriginResult.resp { status := 304, headers := hdrs, body := body })).panicked
      = false := by
  have hnot : ¬ now > mi.expiration := not_lt.mpr hfresh
  constructor <;>
    simp [CDN.httpHandler, MemoryCache.Lookup, hfound, hnot, hval, hreq, CDN.validate]

/-- Witness for `validation_304_writes_nothing`: `freshCache` at time 200
(cached at 100, past the 15-second validation window) with `example.com`
routed by `exampleEps`. -/
theorem validation_304_writes_nothing_witness :
    (mapLookup freshCache.objs "u" = some freshItem ∧
      (200 : Int) ≤ freshItem.expiration ∧
      shouldValidate freshItem.co 15 200 = true ∧
      goNewRequestOk (frOf exampleEps "example.com" "/a") = true) ∧
    ((CDN.httpHandler (fun _ => true) exampleEps freshCache 200 "example.com" "/a" "u"
        (OriginResult.resp { status := 304, headers := [], body := [] })).actions = [] ∧
      (CDN.httpHandler (fun _ => true) exampleEps freshCache 200 "example.com" "/a" "u"
        (OriginResult.resp { status := 304, headers := [], body := [] })).panicked
        = false) :=
  ⟨⟨by decide, by decide, by decide, by decide⟩,
   validation_304_writes_nothing (fun _ => true) exampleEps freshCache 200 "example.com"
     "/a" "u" [] [] freshItem (by decide) (by decide) (by decide) (by decide)⟩

/-- Claim C8 counterexample: a request whose stripped host
`unknown.example` is not in the (empty) routing table is answered with
status 400 Bad Request — a client-error status, not a gateway-class one —
because the handler builds the origin URL `"://unknown.example:0/x"` and
`http.NewRequest` rejects it. -/
theorem unknown_host_400_not_gateway :
    (CDN.httpHandler (fun _ => true) [] (NewMemoryCache 20 false) 0 "unknown.example"
        "/x" "http://unknown.example/x" OriginResult.failure).actions =
      [WriteAction.writeHeader 400] ∧
    gatewayClassStatus 400 = false := by
  decide

/-- Claim C8 (amended): for every request whose stripped host is not in the
routing table and whose cache lookup does not find an entry, the handler
responds 400 Bad Request — a client-error response, not gateway-class — and
the outcome is independent of the origin, which is never contacted.  (A found
cache entry is still served or validated as usual.) -/
theorem unknown_host_miss_responds_400 (ctOK : String → Bool)
    (eps : List (String × Endpoint)) (c : MemoryCache) (now : Int)
    (host p reqURL : String) (origin : OriginResult)
    (hhost : mapLookup eps host = none)
    (hmiss : ((c.Lookup now reqURL).1).found = false) :
    (CDN.httpHandler ctOK eps c now host p reqURL origin).actions =
      [WriteAction.writeHeader 400] ∧
    gatewayClassStatus 400 = false := by
  have hfr := goNewRequestOk_unknown_host eps host p hhost
  constructor
  · simp [CDN.httpHandler, hmiss, hfr]
  · decide

/-- Witness for `unknown_host_miss_responds_400`: the empty routing table, an
empty fresh store, and a transport-failing origin. -/
theorem unknown_host_miss_responds_400_witness :
    (mapLookup ([] : List (String × Endpoint)) "unknown.example" = none ∧
      (((NewMemoryCache 20 false).Lookup 0 "http://unknown.example/x").1).found = false) ∧
    ((CDN.httpHandler (fun _ => true) [] (NewMemoryCache 20 false) 0 "unknown.example"
        "/x" "http://unknown.example/x" (OriginResult.resp
          { status := 200, headers := [], body := [] })).actions =
      [WriteAction.writeHeader 400] ∧
    gatewayClassStatus 400 = false) :=
  ⟨⟨by decide, by decide⟩,
   unknown_host_miss_responds_400 (fun _ => true) [] (NewMemoryCache 20 false) 0
     "unknown.example" "/x" "http://unknown.example/x"
     (OriginResult.resp { status := 200, headers := [], body := [] })
     (by decide) (by decide)⟩

/-- Claim C9: the memcached adapter's `Purge` maps the backend's miss-on-delete
to success, so purging is idempotent: purging the same key twice succeeds both
times (modelled against an available backend, whose `Delete` fails only with
`ErrCacheMiss`). -/
theorem memcached_purge_idempotent (b : List (String × List Nat)) (k : String) :
    (mapLookup b k = none → (MemcachedCache.Purge b k).1 = none) ∧
    (MemcachedCache.Purge b k).1 = none ∧
    (MemcachedCache.Purge ((MemcachedCache.Purge b k).2) k).1 = none := by
  have hP : ∀ m : List (String × List Nat), (MemcachedCache.Purge m k).1 = none := by
    intro m
    unfold MemcachedCache.Purge mcDelete
    cases mapLookup m k <;> rfl
  exact ⟨fun _ => hP b, hP b, hP _⟩

/-- Witness for `memcached_purge_idempotent`: a one-entry backend, purging a
missing key and purging the same present key twice. -/
theorem memcached_purge_idempotent_witness :
    (mapLookup ([("a", [1])] : List (String × List Nat)) "b" = none ∧
      (MemcachedCache.Purge [("a", [1])] "b").1 = none) ∧
    (MemcachedCache.Purge [("a", [1])] "a").1 = none ∧
    (MemcachedCache.Purge ((MemcachedCache.Purge [("a", [1])] "a").2) "a").1 = none :=
  ⟨⟨by decide, (memcached_purge_idempotent [("a", [1])] "b").1 (by decide)⟩,
   (memcached_purge_idempotent [("a", [1])] "a").2.1,
   (memcached_purge_idempotent [("a", [1])] "a").2.2⟩

end Particles
